import Mathlib

/-!
Verification of the encrypted persistence layer and authentication service of
the Privacy-Preserving RAM Acquisition and Analysis Tool.

The development shallowly embeds `src/core/secure_store.py`,
`src/core/auth.py`, `src/core/user_store.py` and `src/core/storage.py`.
Python byte strings are `List Nat`, text is `String`, JSON values are the
inductive `Doc` below, raised exceptions are explicit `Option`/`Except`
error values, and the file system is threaded explicitly (a file is an
`Option String`: `none` means the file does not exist).

The repository's `src/core/crypto.py` (`aes256_encrypt`/`aes256_decrypt`)
is not part of the sources; together with the Python standard-library
helpers (`json`, `base64`, UTF-8 codecs, `hashlib`) it is an external
collaborator of the core under study.  These collaborators are therefore kept
abstract, bundled in the `Collab` structure, and the laws the spec assigns
to them (e.g. the cipher round-trip law) appear as explicit hypotheses of
the theorems that need them.
-/

namespace RamAcq

/-- Python `str.strip()`: drop leading and trailing whitespace.  (Defined
over the character list so that it evaluates by definitional reduction.) -/
def pyStrip (s : String) : String :=
  String.mk (((s.data.dropWhile Char.isWhitespace).reverse.dropWhile
    Char.isWhitespace).reverse)

/-- Python `str.lower()` (ASCII range, which covers the role names). -/
def pyLower (s : String) : String := String.mk (s.data.map Char.toLower)

/-- JSON values as produced by `json.loads` / consumed by `json.dumps`.
Objects are association lists; as in a Python `dict` built by the JSON
parser, a duplicated key resolves to its last occurrence (see `objLookup`). -/
inductive Doc where
  | null : Doc
  | bool (b : Bool) : Doc
  | num (n : Int) : Doc
  | str (s : String) : Doc
  | arr (xs : List Doc) : Doc
  | obj (kvs : List (String × Doc)) : Doc

/-- Key lookup in a JSON object, last occurrence winning (the semantics of
`json.loads`, which builds a Python dict by successive assignment). -/
def objLookup (k : String) : List (String × Doc) → Option Doc
  | [] => none
  | (k2, v) :: rest =>
    match objLookup k rest with
    | some r => some r
    | none => if k2 = k then some v else none

/-- `envelope[field]` followed by use as a base64 text: in Python a missing
key, a non-object envelope or a non-string field value all raise
(`KeyError`/`TypeError`), and every such exception is swallowed by the
`except Exception` of `EncryptedJsonStore.read`; all of these collapse to
`none` here. -/
def getStrField (d : Doc) (k : String) : Option String :=
  match d with
  | .obj kvs =>
    match objLookup k kvs with
    | some (.str s) => some s
    | _ => none
  | _ => none

/-- Modelled from the spec: the external collaborators of the core.
`src/core/crypto.py` is not among the source files, and `json`, `base64`,
UTF-8 codecs and `hashlib.sha256` are the Python standard library, so all
are abstract here, per the spec collaborator interface: an encryption
primitive `encrypt(plaintext, key) -> (iv, ciphertext)` /
`decrypt(iv, ciphertext, key) -> plaintext`, a JSON codec, base64 codecs
and a one-way hash.  A partial Python operation (one that can raise) is an
`Option`-valued field; `none` models the raise. -/
structure Collab where
  /-- `json.loads`; `none` models a raised `json.JSONDecodeError`. -/
  parse : String → Option Doc
  /-- `json.dumps(value, indent=2, default=str)`. -/
  dumps : Doc → String
  /-- `base64.b64encode(..).decode("ascii")`. -/
  b64e : List Nat → String
  /-- `base64.b64decode`; `none` models a raised `binascii.Error`. -/
  b64d : String → Option (List Nat)
  /-- `str.encode("utf-8")`. -/
  utf8e : String → List Nat
  /-- `bytes.decode("utf-8")`; `none` models a raised `UnicodeDecodeError`. -/
  utf8d : List Nat → Option String
  /-- `aes256_encrypt(plaintext, key) -> (iv, ciphertext)` (one call, with
  the IV freshly drawn inside the primitive). -/
  enc : List Nat → List Nat → List Nat × List Nat
  /-- `aes256_decrypt(iv, ciphertext, key)`; `none` models a raise
  (authentication/padding failure). -/
  dec : List Nat → List Nat → List Nat → Option (List Nat)
  /-- `hashlib.sha256(bytes).hexdigest()`. -/
  sha256hex : List Nat → String

namespace EncryptedJsonStore

/-- The body of the `try:` block of `EncryptedJsonStore.read`
(`src/core/secure_store.py` lines 43-51): parse the raw file as an
envelope, pull the `iv` and `ciphertext` fields, base64-decode them,
decrypt with the store key, UTF-8-decode, and parse the plaintext as the
document.  `none` means some step raised, which the caller catches. -/
def tryEncryptedRead (C : Collab) (key : List Nat) (raw : String) : Option Doc :=
  (C.parse raw).bind fun envelope =>
  (getStrField envelope "iv").bind fun iv_b64 =>
  (getStrField envelope "ciphertext").bind fun ciphertext_b64 =>
  (C.b64d iv_b64).bind fun iv =>
  (C.b64d ciphertext_b64).bind fun ciphertext =>
  (C.dec iv ciphertext key).bind fun plaintextBytes =>
  (C.utf8d plaintextBytes).bind fun plaintext =>
  C.parse plaintext

/-- `EncryptedJsonStore.write` (`src/core/secure_store.py` lines 61-68),
as the string it writes to the store's file. -/
def write (C : Collab) (key : List Nat) (value : Doc) : String :=
  let payload := C.dumps value
  let p := C.enc (C.utf8e payload) key
  C.dumps (.obj [("iv", .str (C.b64e p.1)), ("ciphertext", .str (C.b64e p.2))])

/-- The envelope object built by `write` before serialization. -/
def envelopeOf (C : Collab) (key : List Nat) (value : Doc) : Doc :=
  .obj [("iv", .str (C.b64e (C.enc (C.utf8e (C.dumps value)) key).1)),
        ("ciphertext", .str (C.b64e (C.enc (C.utf8e (C.dumps value)) key).2))]

/-- `EncryptedJsonStore.read` (`src/core/secure_store.py` lines 37-59).
The input file is `none` when it does not exist; the result pairs the
returned document with the file contents after the call (the legacy
migration branch rewrites the file through `write`). -/
def read (C : Collab) (key : List Nat) (file : Option String) (default : Doc) :
    Doc × Option String :=
  match file with
  | none => (default, none)
  | some raw =>
    if pyStrip raw = "" then (default, some raw)
    else
      match tryEncryptedRead C key raw with
      | some doc => (doc, some raw)
      | none =>
        -- Assume legacy plaintext JSON, re-encrypt on next write
        match C.parse raw with
        | none => (default, some raw)
        | some legacy => (legacy, some (write C key legacy))

end EncryptedJsonStore

/-! ### A concrete collaborator instance

`toyC` instantiates the abstract collaborators with small executable
functions whose laws hold at the concrete points the witnesses evaluate;
it exists only so that witnesses and counterexamples can be computed. -/

/-- Toy serializer: injective on the documents appearing in concrete
scenarios, and rendering every well-formed envelope faithfully. -/
def toyDumps : Doc → String
  | .str "x" => "PX"
  | .num 7 => "PL"
  | .obj [("iv", .str i), ("ciphertext", .str c)] => "E(" ++ i ++ "|" ++ c ++ ")"
  | _ => "?"

/-- Toy parser: inverse of `toyDumps` at the strings used in concrete
scenarios, plus a legacy plaintext file `"LEGRAW"`. -/
def toyParse (s : String) : Option Doc :=
  if s = "PX" then some (.str "x")
  else if s = "PL" then some (.num 7)
  else if s = "LEGRAW" then some (.num 7)
  else if s = "E(\x01|PX)" then
    some (.obj [("iv", .str "\x01"), ("ciphertext", .str "PX")])
  else if s = "E(\x01|PL)" then
    some (.obj [("iv", .str "\x01"), ("ciphertext", .str "PL")])
  else none

/-- Bytes rendered as the string with those character codes. -/
def byteStr (l : List Nat) : String := String.mk (l.map Char.ofNat)

/-- Character codes of a string; inverse of `byteStr` on byte ranges. -/
def strBytes (s : String) : List Nat := s.data.map Char.toNat

/-- Concrete collaborator bundle used by witnesses and counterexamples. -/
def toyC : Collab where
  parse := toyParse
  dumps := toyDumps
  b64e := byteStr
  b64d := fun s => some (strBytes s)
  utf8e := strBytes
  utf8d := fun l => some (byteStr l)
  enc := fun pt k => (k.take 1, pt)
  dec := fun iv ct k => if iv = k.take 1 then some ct else none
  sha256hex := fun l => "H" ++ byteStr l

/-- A 32-byte key. -/
def key1 : List Nat := List.replicate 32 1

/-- A different 32-byte key. -/
def key2 : List Nat := List.replicate 32 2

/-! ### The authentication service (`src/core/auth.py`)

The in-memory mapping `self._records : dict[str, dict]` is an association
list with Python-dict semantics: `dictGet` finds the first binding,
`dictSet` updates in place (keeping the original position) or appends, and
`dictDel` removes the binding.  A persisted user record is the flat
structure `UserRec`; a record whose `username` key is absent from the
underlying dict is modelled by `username = ""` (both are falsy in the
`if not username` guard of `_load_users`). -/

/-- One stored user record (the dict built by `upsert_user` /
`_create_user_record`).  `salt` is the base64 text stored on disk. -/
structure UserRec where
  username : String
  name : String
  role : String
  user_id : String
  salt : String
  password_hash : String
  full_access : Bool
deriving DecidableEq, Repr

/-- The identity returned by a successful `authenticate` (`models.User`). -/
structure User where
  user_id : String
  name : String
  role : String
deriving DecidableEq, Repr

/-- `d.get(k)` on a Python dict modelled as an association list. -/
def dictGet {α : Type} (k : String) : List (String × α) → Option α
  | [] => none
  | (k2, v) :: rest => if k2 = k then some v else dictGet k rest

/-- `d[k] = v`: replace in place if the key is present, else append. -/
def dictSet {α : Type} (k : String) (v : α) : List (String × α) → List (String × α)
  | [] => [(k, v)]
  | (k2, v2) :: rest =>
    if k2 = k then (k, v) :: rest else (k2, v2) :: dictSet k v rest

/-- `del d[k]`: remove the binding of `k` (the first, and in a genuine
dict the only, occurrence). -/
def dictDel {α : Type} (k : String) : List (String × α) → List (String × α)
  | [] => []
  | (k2, v2) :: rest =>
    if k2 = k then rest else (k2, v2) :: dictDel k rest

/-- The Auth Service state: the in-memory mapping `self._records` plus the
record list most recently persisted through
`EncryptedUserStore.save_users` (`_persist` writes `self._records.values()`). -/
structure AuthState where
  records : List (String × UserRec)
  store : List UserRec
deriving DecidableEq, Repr

/-- Python truthiness of the optional `password` argument: `None` and the
empty string are both falsy. -/
def pyTruthy : Option String → Bool
  | none => false
  | some p => !(p == "")

/-- `AuthService._hash_password` (`src/core/auth.py` lines 144-145):
`sha256(salt + password.encode()).hexdigest()`. -/
def hash_password (C : Collab) (password : String) (salt : List Nat) : String :=
  C.sha256hex (salt ++ C.utf8e password)

/-- `AuthService.authenticate` (`src/core/auth.py` lines 24-39).  The
result is `Except` because `base64.b64decode` of a malformed stored salt
raises out of `authenticate`; `.ok none` is the negative (no-user) result,
and `hmac.compare_digest` on two hexdigest strings is string equality. -/
def authenticate (C : Collab) (s : AuthState) (username password : String) :
    Except String (Option User) :=
  match dictGet username s.records with
  | none => .ok none
  | some record =>
    match C.b64d record.salt with
    | none => .error "binascii.Error"
    | some salt =>
      if record.password_hash = hash_password C password salt then
        .ok (some { user_id := record.user_id, name := record.name,
                    role := record.role })
      else .ok none

/-- `AuthService.upsert_user` (`src/core/auth.py` lines 44-78).  The fresh
randomness (`secrets.token_bytes(16)`) and the fresh identifier
(`uuid4().hex`) are passed in as `freshSalt` / `freshId`.  The second
component is the raised `ValueError` message (`none` on success); a raise
leaves the state exactly as it was at the raise point. -/
def upsert_user (C : Collab) (freshSalt : List Nat) (freshId : String)
    (s : AuthState) (username name role : String) (password : Option String)
    (full_access : Bool) : AuthState × Option String :=
  let username := pyStrip username
  if username = "" then (s, some "Username is required.")
  else
    let record := dictGet username s.records
    if record.isNone && !(pyTruthy password) then
      (s, some "Password is required for new users.")
    else
      let saltHash : Except String (List Nat × String) :=
        if pyTruthy password then
          .ok (freshSalt, hash_password C (password.getD "") freshSalt)
        else
          match record with
          | none => .error "TypeError"
          | some r =>
            match C.b64d r.salt with
            | none => .error "binascii.Error"
            | some saltBytes => .ok (saltBytes, r.password_hash)
      match saltHash with
      | .error e => (s, some e)
      | .ok sh =>
        let user_id :=
          match record with
          | some r => r.user_id
          | none => "u_" ++ freshId
        let new_record : UserRec :=
          { username := username
            name := if name = "" then username else name
            role := role
            user_id := user_id
            salt := C.b64e sh.1
            password_hash := sh.2
            full_access := full_access }
        let records2 := dictSet username new_record s.records
        ({ records := records2, store := records2.map (fun e => e.2) }, none)

/-- Number of records whose role is (case-insensitively) `admin`
(`src/core/auth.py` line 86). -/
def adminCount (l : List (String × UserRec)) : Nat :=
  (l.filter (fun e => pyLower e.2.role == "admin")).length

/-- `AuthService.delete_user` (`src/core/auth.py` lines 80-91).  The
second component is the raised `ValueError` message (`none` on success). -/
def delete_user (s : AuthState) (username : String) : AuthState × Option String :=
  match dictGet username s.records with
  | none => (s, some "User does not exist.")
  | some record =>
    if pyLower record.role == "admin" && decide (adminCount s.records ≤ 1) then
      (s, some "At least one admin account must remain.")
    else
      let records2 := dictDel username s.records
      ({ records := records2, store := records2.map (fun e => e.2) }, none)

/-- The loop body of `AuthService._load_users`: skip an entry whose
username is falsy, otherwise assign `users[username] = entry`. -/
def loadStep (users : List (String × UserRec)) (entry : UserRec) :
    List (String × UserRec) :=
  if entry.username = "" then users else dictSet entry.username entry users

/-- `AuthService._load_users` (`src/core/auth.py` lines 93-100): build the
in-memory mapping from the persisted list, silently dropping any entry
whose username is missing or empty. -/
def load_users (entries : List UserRec) : List (String × UserRec) :=
  entries.foldl loadStep []

/-- The Auth Service state right after a (re)load from a persisted list. -/
def stateOf (entries : List UserRec) : AuthState :=
  { records := load_users entries, store := entries }

/-- One Auth Service call, with its nondeterministic inputs made explicit. -/
inductive AuthOp where
  | auth (username password : String)
  | upsert (freshSalt : List Nat) (freshId : String)
      (username name role : String) (password : Option String)
      (full_access : Bool)
  | del (username : String)

/-- Apply one operation to the service state.  `authenticate` never
mutates; failed `upsert_user`/`delete_user` calls return the state at the
raise point. -/
def applyOp (C : Collab) (s : AuthState) : AuthOp → AuthState
  | .auth _ _ => s
  | .upsert fs fi u n r pw fa => (upsert_user C fs fi s u n r pw fa).1
  | .del u => (delete_user s u).1

/-- Run a sequence of Auth Service operations. -/
def runOps (C : Collab) (s : AuthState) (ops : List AuthOp) : AuthState :=
  ops.foldl (applyOp C) s

/-- Operations other than `upsert_user`. -/
def nonUpsert : AuthOp → Bool
  | .upsert .. => false
  | _ => true

/-! ### Claims about the Auth Service -/

/-- A concrete Admin record for counterexamples and witnesses. -/
def adminRec : UserRec :=
  { username := "admin", name := "Administrator", role := "Admin",
    user_id := "u_admin", salt := "\x01", password_hash := "HX",
    full_access := true }

/-- A concrete Investigator record. -/
def invRec : UserRec :=
  { username := "investigator", name := "Investigator", role := "Investigator",
    user_id := "u_inv", salt := "\x02", password_hash := "HY",
    full_access := false }

/-- A service state holding exactly one Admin record. -/
def s0 : AuthState := { records := [("admin", adminRec)], store := [adminRec] }

/-- A record whose password is `"pw"` under the toy hash and the salt
bytes `[3]`. -/
def aliceRec : UserRec :=
  { username := "alice", name := "Alice", role := "Investigator",
    user_id := "u_a", salt := "\x03", password_hash := "H\x03pw",
    full_access := false }

/-- A service state holding only `aliceRec`. -/
def sAlice : AuthState := { records := [("alice", aliceRec)], store := [aliceRec] }

/-- An existing Viewer record for the C9 scenario. -/
def bobRec : UserRec :=
  { username := "bob", name := "Bob", role := "Viewer", user_id := "u_b",
    salt := "\x02", password_hash := "HB", full_access := false }

/-- A service state holding only `bobRec`. -/
def sBob : AuthState := { records := [("bob", bobRec)], store := [bobRec] }

/-- The well-formedness the mapping maintains: every binding has a
nonempty key equal to its record's username field. -/
def goodRecords (l : List (String × UserRec)) : Prop :=
  ∀ p ∈ l, p.1 ≠ "" ∧ p.1 = p.2.username

/-- A persisted record with an empty username field. -/
def ghostRec : UserRec :=
  { username := "", name := "Ghost", role := "Admin", user_id := "u_g",
    salt := "\x04", password_hash := "HG", full_access := true }

/-! ### Claim about the Key Manager (`src/core/secure_store.py` lines 20-26) -/

namespace SecretKeyManager

/-- `SecretKeyManager.load_key`.  The key file is `none` when absent;
`rnd` is the draw `os.urandom(32)` would produce if the file has to be
created.  The result pairs the file contents after the call with either
the returned key or the raised `ValueError` message. -/
def load_key (file : Option (List Nat)) (rnd : List Nat) :
    Option (List Nat) × Except String (List Nat) :=
  let contents := match file with
    | none => rnd
    | some b => b
  if contents.length ≠ 32 then
    (some contents, .error "Key must be exactly 32 bytes.")
  else (some contents, .ok contents)

end SecretKeyManager

/-! ### Claim about the Evidence Store (`src/core/storage.py`)

Two complementary models.  First, each method body is transcribed as the
ordered list of store/lock primitives it performs, which settles which
methods take the lock.  Second, `add_image` is given an interleaving
small-step semantics over `n` in-process threads: each thread acquires
the single mutual-exclusion lock, reads the whole document, writes it
back with its own record appended, and releases — the body of
`add_image` under `with self._lock`. -/

/-- The store/lock primitives a method body can perform. -/
inductive EvAction where
  | acquire
  | readStore
  | writeStore
  | release
deriving DecidableEq, Repr

/-- `EvidenceStore.add_image` (lines 29-42): `with self._lock:` around
`self._read()` and `self._write(data)`. -/
def add_image_actions : List EvAction :=
  [.acquire, .readStore, .writeStore, .release]

/-- `EvidenceStore.list_images` (lines 25-27): `data = self._read()` and
a pure transformation — there is no `with self._lock` in the body. -/
def list_images_actions : List EvAction := [.readStore]

/-- `EvidenceStore.clear` (lines 44-46): `with self._lock: self._write([])`. -/
def clear_actions : List EvAction := [.acquire, .writeStore, .release]

/-- Program counter of one thread running `add_image`: before the lock,
holding the lock, holding the lock with the read snapshot in `data`,
after the write, and finished (lock released). -/
inductive EvPC (R : Type) where
  | start
  | acquired
  | readDone (localData : List R)
  | written
  | done

/-- Global state of the interleaving: the stored document, the lock
owner, and each thread's program counter. -/
structure EvConfig (R : Type) (n : Nat) where
  file : List R
  lock : Option (Fin n)
  pcs : Fin n → EvPC R

/-- All `n` threads about to call `add_image` on a store holding `init`. -/
def initConfig (R : Type) (n : Nat) (init : List R) : EvConfig R n :=
  { file := init, lock := none, pcs := fun _ => .start }

/-- One interleaving step: thread `i` executes its next primitive.
`acquire` blocks unless the lock is free; the other steps only advance
the thread's own program counter (the mutual exclusion that protects
them is a consequence of `acquire`/`release`, proved in `EvInv`). -/
inductive EvStep {R : Type} {n : Nat} (recs : Fin n → R) :
    EvConfig R n → EvConfig R n → Prop where
  | acquire (c : EvConfig R n) (i : Fin n) (h1 : c.pcs i = .start)
      (h2 : c.lock = none) :
      EvStep recs c { file := c.file, lock := some i,
                      pcs := Function.update c.pcs i .acquired }
  | readStore (c : EvConfig R n) (i : Fin n) (h1 : c.pcs i = .acquired) :
      EvStep recs c { file := c.file, lock := c.lock,
                      pcs := Function.update c.pcs i (.readDone c.file) }
  | writeStore (c : EvConfig R n) (i : Fin n) (loc : List R)
      (h1 : c.pcs i = .readDone loc) :
      EvStep recs c { file := loc ++ [recs i], lock := c.lock,
                      pcs := Function.update c.pcs i .written }
  | release (c : EvConfig R n) (i : Fin n) (h1 : c.pcs i = .written) :
      EvStep recs c { file := c.file, lock := none,
                      pcs := Function.update c.pcs i .done }

/-- Reachability from the initial configuration. -/
def evReachable {R : Type} {n : Nat} (recs : Fin n → R) (init : List R)
    (c : EvConfig R n) : Prop :=
  Relation.ReflTransGen (EvStep recs) (initConfig R n init) c

/-- A program counter inside the critical section. -/
def inCS {R : Type} : EvPC R → Prop
  | .acquired => True
  | .readDone _ => True
  | .written => True
  | .start => False
  | .done => False

/-- The inductive invariant: (1) a thread inside the critical section
owns the lock (hence mutual exclusion); (2) the file is `init` followed
by exactly the records of the threads that have written, once each; (3) a
read snapshot taken inside the critical section is the current file. -/
structure EvInv {R : Type} {n : Nat} (recs : Fin n → R) (init : List R)
    (c : EvConfig R n) : Prop where
  lockInv : ∀ i, inCS (c.pcs i) → c.lock = some i
  fileInv : ∃ l : List (Fin n), l.Nodup
    ∧ (∀ i, i ∈ l ↔ (c.pcs i = .written ∨ c.pcs i = .done))
    ∧ c.file = init ++ l.map recs
  localInv : ∀ i loc, c.pcs i = .readDone loc → loc = c.file

namespace EncryptedJsonStore

theorem write_eq_dumps_envelopeOf (C : Collab) (key : List Nat) (value : Doc) :
    write C key value = C.dumps (envelopeOf C key value) := rfl

/-- `read` on an existing file, unfolded once. -/
theorem read_some (C : Collab) (key : List Nat) (raw : String) (default : Doc) :
    read C key (some raw) default =
      if pyStrip raw = "" then (default, some raw)
      else
        match tryEncryptedRead C key raw with
        | some doc => (doc, some raw)
        | none =>
          match C.parse raw with
          | none => (default, some raw)
          | some legacy => (legacy, some (write C key legacy)) := rfl

/-- If the collaborator round-trip laws hold at the envelope of `value`,
the encrypted read path applied to the file written for `value` succeeds
and recovers `value`. -/
theorem tryEncryptedRead_write (C : Collab) (key : List Nat) (value : Doc)
    (henv : C.parse (write C key value) = some (envelopeOf C key value))
    (hiv : C.b64d (C.b64e (C.enc (C.utf8e (C.dumps value)) key).1)
      = some (C.enc (C.utf8e (C.dumps value)) key).1)
    (hct : C.b64d (C.b64e (C.enc (C.utf8e (C.dumps value)) key).2)
      = some (C.enc (C.utf8e (C.dumps value)) key).2)
    (hdec : C.dec (C.enc (C.utf8e (C.dumps value)) key).1
      (C.enc (C.utf8e (C.dumps value)) key).2 key
      = some (C.utf8e (C.dumps value)))
    (hutf : C.utf8d (C.utf8e (C.dumps value)) = some (C.dumps value))
    (hparse : C.parse (C.dumps value) = some value) :
    tryEncryptedRead C key (write C key value) = some value := by
  have h1 : getStrField (envelopeOf C key value) "iv"
      = some (C.b64e (C.enc (C.utf8e (C.dumps value)) key).1) := rfl
  have h2 : getStrField (envelopeOf C key value) "ciphertext"
      = some (C.b64e (C.enc (C.utf8e (C.dumps value)) key).2) := rfl
  unfold tryEncryptedRead
  rw [henv]
  simp only [Option.some_bind, h1, h2, hiv, hct, hdec, hutf, hparse]

/-- If the raw contents do not parse as JSON, the encrypted read path
fails at its first step. -/
theorem tryEncryptedRead_of_parse_none (C : Collab) (key : List Nat)
    (raw : String) (h : C.parse raw = none) :
    tryEncryptedRead C key raw = none := by
  unfold tryEncryptedRead
  rw [h, Option.none_bind]

end EncryptedJsonStore

/-! ### Claims about the Encrypted Document Store -/

open EncryptedJsonStore in
/-- Claim C1, counterexample.  A file holding an intact envelope written
under `key1` is read with the different 32-byte key `key2`: decryption
fails (conjunct 5), yet `read` does not return the default — the legacy
fallback parses the envelope itself as JSON, so `read` returns the
envelope object and rewrites it re-encrypted under `key2` (conjunct 6).
Conjunct 4 shows the cipher does round-trip under the correct key, so the
envelope is genuine. -/
theorem C1_counterexample :
    key1.length = 32 ∧ key2.length = 32 ∧ key1 ≠ key2
    ∧ toyC.dec (toyC.enc (toyC.utf8e (toyC.dumps (Doc.str "x"))) key1).1
        (toyC.enc (toyC.utf8e (toyC.dumps (Doc.str "x"))) key1).2 key1
        = some (toyC.utf8e (toyC.dumps (Doc.str "x")))
    ∧ tryEncryptedRead toyC key2 (write toyC key1 (Doc.str "x")) = none
    ∧ read toyC key2 (some (write toyC key1 (Doc.str "x"))) Doc.null
        = (envelopeOf toyC key1 (Doc.str "x"),
           some (write toyC key2 (envelopeOf toyC key1 (Doc.str "x"))))
    ∧ envelopeOf toyC key1 (Doc.str "x") ≠ Doc.null :=
  ⟨by decide, by decide, by decide, rfl, rfl, rfl, nofun⟩

open EncryptedJsonStore in
/-- Claim C1, amended.  Reading an intact envelope written under a
different key (so that the encrypted path fails) does not yield the
default: the legacy fallback parses the envelope JSON itself, returns the
envelope object and rewrites it re-encrypted under the store's key.  The
default is returned, without raising, exactly in the case where the raw
contents are not parseable as JSON at all. -/
theorem C1_wrong_key_returns_envelope (C : Collab) (key1 key2 : List Nat)
    (x default : Doc)
    (hfail : tryEncryptedRead C key2 (write C key1 x) = none)
    (henv : C.parse (write C key1 x) = some (envelopeOf C key1 x))
    (hne : pyStrip (write C key1 x) ≠ "") :
    read C key2 (some (write C key1 x)) default
      = (envelopeOf C key1 x, some (write C key2 (envelopeOf C key1 x)))
    ∧ ∀ (key : List Nat) (raw : String) (d : Doc), C.parse raw = none →
        pyStrip raw ≠ "" → read C key (some raw) d = (d, some raw) := by
  constructor
  · rw [read_some, if_neg hne]
    simp only [hfail, henv]
  · intro key raw d hparse hraw
    rw [read_some, if_neg hraw]
    simp only [tryEncryptedRead_of_parse_none C key raw hparse, hparse]

open EncryptedJsonStore in
/-- Claim C1, witness for the amended theorem, at the concrete toy
collaborators: the file written under `key1` and read under `key2` comes
back as the envelope object, and the unparseable file `"?"` comes back as
the default. -/
theorem C1_wrong_key_witness :
    read toyC key2 (some (write toyC key1 (Doc.str "x"))) Doc.null
      = (envelopeOf toyC key1 (Doc.str "x"),
         some (write toyC key2 (envelopeOf toyC key1 (Doc.str "x"))))
    ∧ read toyC key1 (some "?") Doc.null = (Doc.null, some "?") :=
  ⟨(C1_wrong_key_returns_envelope toyC key1 key2 (Doc.str "x") Doc.null rfl rfl
      (by decide)).1,
   (C1_wrong_key_returns_envelope toyC key1 key2 (Doc.str "x") Doc.null rfl rfl
      (by decide)).2 key1 "?" Doc.null rfl (by decide)⟩

open EncryptedJsonStore in
/-- Claim C4: writing a document and reading it back through the same
store returns an equal document, assuming the collaborator laws at the
values involved: the cipher round-trip law (`hdec`), the JSON round-trips
for the envelope and the document, and the base64 and UTF-8 round-trips. -/
theorem C4_write_read_roundtrip (C : Collab) (key : List Nat) (x default : Doc)
    (henv : C.parse (write C key x) = some (envelopeOf C key x))
    (hne : pyStrip (write C key x) ≠ "")
    (hiv : C.b64d (C.b64e (C.enc (C.utf8e (C.dumps x)) key).1)
      = some (C.enc (C.utf8e (C.dumps x)) key).1)
    (hct : C.b64d (C.b64e (C.enc (C.utf8e (C.dumps x)) key).2)
      = some (C.enc (C.utf8e (C.dumps x)) key).2)
    (hdec : C.dec (C.enc (C.utf8e (C.dumps x)) key).1
      (C.enc (C.utf8e (C.dumps x)) key).2 key = some (C.utf8e (C.dumps x)))
    (hutf : C.utf8d (C.utf8e (C.dumps x)) = some (C.dumps x))
    (hparse : C.parse (C.dumps x) = some x) :
    (read C key (some (write C key x)) default).1 = x := by
  have htry := tryEncryptedRead_write C key x henv hiv hct hdec hutf hparse
  rw [read_some, if_neg hne]
  simp only [htry]

open EncryptedJsonStore in
/-- Claim C4, witness at the toy collaborators, key `key1`, document
`Doc.str "x"` and default `Doc.null`. -/
theorem C4_witness :
    (read toyC key1 (some (write toyC key1 (Doc.str "x"))) Doc.null).1
      = Doc.str "x" :=
  C4_write_read_roundtrip toyC key1 (Doc.str "x") Doc.null rfl (by decide)
    rfl rfl rfl rfl rfl

open EncryptedJsonStore in
/-- Claim C5: a file holding valid legacy plaintext JSON (and not a
decryptable envelope) is returned by the first `read` and rewritten in
place through the normal `write` path; a second `read` of the rewritten
file returns the same value through the successful decrypt path and does
not change the file again.  The collaborator laws at the values involved
are hypotheses, as in C4. -/
theorem C5_legacy_migration (C : Collab) (key : List Nat) (raw : String)
    (legacy default : Doc)
    (hne : pyStrip raw ≠ "")
    (hfail : tryEncryptedRead C key raw = none)
    (hleg : C.parse raw = some legacy)
    (henv : C.parse (write C key legacy) = some (envelopeOf C key legacy))
    (hne2 : pyStrip (write C key legacy) ≠ "")
    (hiv : C.b64d (C.b64e (C.enc (C.utf8e (C.dumps legacy)) key).1)
      = some (C.enc (C.utf8e (C.dumps legacy)) key).1)
    (hct : C.b64d (C.b64e (C.enc (C.utf8e (C.dumps legacy)) key).2)
      = some (C.enc (C.utf8e (C.dumps legacy)) key).2)
    (hdec : C.dec (C.enc (C.utf8e (C.dumps legacy)) key).1
      (C.enc (C.utf8e (C.dumps legacy)) key).2 key
      = some (C.utf8e (C.dumps legacy)))
    (hutf : C.utf8d (C.utf8e (C.dumps legacy)) = some (C.dumps legacy))
    (hparse : C.parse (C.dumps legacy) = some legacy) :
    read C key (some raw) default = (legacy, some (write C key legacy))
    ∧ tryEncryptedRead C key (write C key legacy) = some legacy
    ∧ read C key (some (write C key legacy)) default
        = (legacy, some (write C key legacy)) := by
  have htry := tryEncryptedRead_write C key legacy henv hiv hct hdec hutf hparse
  refine ⟨?_, htry, ?_⟩
  · rw [read_some, if_neg hne]
    simp only [hfail, hleg]
  · rw [read_some, if_neg hne2]
    simp only [htry]

open EncryptedJsonStore in
/-- Claim C5, witness: the legacy file `"LEGRAW"` parses to the document
`Doc.num 7`, migrates to the envelope file on first read, and the second
read returns the same document from the envelope without rewriting. -/
theorem C5_witness :
    read toyC key1 (some "LEGRAW") Doc.null
      = (Doc.num 7, some (write toyC key1 (Doc.num 7)))
    ∧ tryEncryptedRead toyC key1 (write toyC key1 (Doc.num 7)) = some (Doc.num 7)
    ∧ read toyC key1 (some (write toyC key1 (Doc.num 7))) Doc.null
        = (Doc.num 7, some (write toyC key1 (Doc.num 7))) :=
  C5_legacy_migration toyC key1 "LEGRAW" (Doc.num 7) Doc.null (by decide) rfl
    rfl rfl (by decide) rfl rfl rfl rfl rfl

/-- Claim C2, counterexample.  Starting from a state whose mapping holds
exactly one record, with role Admin, a single `upsert_user` call that
keeps the username but changes the role to Viewer (no password supplied,
so credentials are carried forward) reaches a state with no Admin record:
the invariant is enforced only by `delete_user`, and `upsert_user` can
demote the last Admin. -/
theorem C2_counterexample :
    0 < adminCount s0.records
    ∧ adminCount (runOps toyC s0
        [AuthOp.upsert [9] "f" "admin" "Administrator" "Viewer" none false]).records
      = 0 := by decide

theorem adminCount_cons (e : String × UserRec) (l : List (String × UserRec)) :
    adminCount (e :: l)
      = adminCount l + (if pyLower e.2.role == "admin" then 1 else 0) := by
  simp only [adminCount, List.filter_cons]
  by_cases h : (pyLower e.2.role == "admin") = true
  · simp [h]
  · simp [h]

theorem adminCount_dictDel (k : String) (r : UserRec)
    (l : List (String × UserRec)) (h : dictGet k l = some r) :
    adminCount l
      = adminCount (dictDel k l)
        + (if pyLower r.role == "admin" then 1 else 0) := by
  induction l with
  | nil => simp [dictGet] at h
  | cons e rest ih =>
    obtain ⟨k2, v⟩ := e
    by_cases hk : k2 = k
    · rw [dictGet, if_pos hk] at h
      obtain rfl : v = r := by injection h
      rw [dictDel, if_pos hk, adminCount_cons]
    · rw [dictGet, if_neg hk] at h
      rw [dictDel, if_neg hk, adminCount_cons, adminCount_cons, ih h]
      omega

theorem delete_user_keeps_admin (s : AuthState) (u : String)
    (h : 0 < adminCount s.records) :
    0 < adminCount (delete_user s u).1.records := by
  unfold delete_user
  split
  next => exact h
  next record hg =>
    split
    next => exact h
    next hc =>
      show 0 < adminCount (dictDel u s.records)
      have hd := adminCount_dictDel u record s.records hg
      by_cases hr : (pyLower record.role == "admin") = true
      · have h2 : ¬ (adminCount s.records ≤ 1) := by
          intro hle
          exact hc (by rw [hr, decide_eq_true hle]; rfl)
        rw [if_pos hr] at hd
        omega
      · rw [if_neg hr] at hd
        omega

/-- Claim C2, amended.  For sequences built from `authenticate` and
`delete_user` only (the operations that never rewrite an existing
record), the at-least-one-Admin invariant is preserved from any state
that satisfies it; `upsert_user` is excluded because it can demote the
last Admin (see the counterexample). -/
theorem C2_admin_invariant (C : Collab) (s : AuthState) (ops : List AuthOp)
    (hops : ∀ op ∈ ops, nonUpsert op = true)
    (h : 0 < adminCount s.records) :
    0 < adminCount (runOps C s ops).records := by
  induction ops generalizing s with
  | nil => exact h
  | cons op rest ih =>
    have hop : nonUpsert op = true := hops op (List.mem_cons_self op rest)
    have hrest : ∀ op2 ∈ rest, nonUpsert op2 = true :=
      fun op2 h2 => hops op2 (List.mem_cons_of_mem op h2)
    have hstep : runOps C s (op :: rest) = runOps C (applyOp C s op) rest := rfl
    rw [hstep]
    cases op with
    | auth u p => exact ih _ hrest h
    | upsert fs fi u n r pw fa => simp [nonUpsert] at hop
    | del u => exact ih _ hrest (delete_user_keeps_admin s u h)

/-- Claim C2, witness for the amended theorem: an authenticate call and a
delete of the Investigator record leave the Admin record in place. -/
theorem C2_witness :
    0 < adminCount (runOps toyC
      { records := [("admin", adminRec), ("investigator", invRec)],
        store := [adminRec, invRec] }
      [AuthOp.auth "admin" "pw", AuthOp.del "investigator"]).records :=
  C2_admin_invariant toyC
    { records := [("admin", adminRec), ("investigator", invRec)],
      store := [adminRec, invRec] }
    [AuthOp.auth "admin" "pw", AuthOp.del "investigator"]
    (by decide) (by decide)

/-- Claim C6: each of the four domain-invariant violations raises an
explicit error and leaves the state (both the in-memory mapping and the
persisted store, the two fields of `AuthState`) unchanged: empty or
whitespace-only username on upsert; brand-new username with no password;
delete of an absent username; delete of an Admin record when exactly one
Admin record exists. -/
theorem C6_domain_errors (C : Collab) :
    (∀ (fs : List Nat) (fi : String) (s : AuthState) (u n r : String)
        (pw : Option String) (fa : Bool), pyStrip u = "" →
        upsert_user C fs fi s u n r pw fa = (s, some "Username is required."))
    ∧ (∀ (fs : List Nat) (fi : String) (s : AuthState) (u n r : String)
        (fa : Bool), pyStrip u ≠ "" → dictGet (pyStrip u) s.records = none →
        upsert_user C fs fi s u n r none fa
          = (s, some "Password is required for new users."))
    ∧ (∀ (s : AuthState) (u : String), dictGet u s.records = none →
        delete_user s u = (s, some "User does not exist."))
    ∧ (∀ (s : AuthState) (u : String) (rec : UserRec),
        dictGet u s.records = some rec → pyLower rec.role = "admin" →
        adminCount s.records = 1 →
        delete_user s u = (s, some "At least one admin account must remain.")) := by
  refine ⟨?_, ?_, ?_, ?_⟩
  · intro fs fi s u n r pw fa h
    simp [upsert_user, h]
  · intro fs fi s u n r fa hu hg
    simp [upsert_user, hu, hg, pyTruthy]
  · intro s u hg
    simp [delete_user, hg]
  · intro s u rec hg hr hcount
    simp [delete_user, hg, hr, hcount]

/-- Claim C6, witness: the four error cases at concrete states. -/
theorem C6_witness :
    upsert_user toyC [9] "f" s0 "  " "N" "Viewer" (some "pw") false
      = (s0, some "Username is required.")
    ∧ upsert_user toyC [9] "f" s0 "carol" "Carol" "Viewer" none false
      = (s0, some "Password is required for new users.")
    ∧ delete_user s0 "nobody" = (s0, some "User does not exist.")
    ∧ delete_user s0 "admin"
      = (s0, some "At least one admin account must remain.") :=
  ⟨(C6_domain_errors toyC).1 [9] "f" s0 "  " "N" "Viewer" (some "pw") false
      (by decide),
   (C6_domain_errors toyC).2.1 [9] "f" s0 "carol" "Carol" "Viewer" false
      (by decide) (by decide),
   (C6_domain_errors toyC).2.2.1 s0 "nobody" (by decide),
   (C6_domain_errors toyC).2.2.2 s0 "admin" adminRec (by decide) (by decide)
      (by decide)⟩

/-- Claim C7: `authenticate` returns the record's identity (user id,
display name, role) exactly when the hash of the stored salt concatenated
with the supplied password equals the stored hash, and returns the
negative result `.ok none` (rather than raising) both for an absent
username and for a hash mismatch.  The stored salt is assumed to be
decodable base64 (`hb`), which holds for every record the service itself
writes. -/
theorem C7_authenticate_spec (C : Collab) (s : AuthState) (u p : String) :
    (dictGet u s.records = none → authenticate C s u p = .ok none)
    ∧ ∀ (rec : UserRec) (saltBytes : List Nat),
        dictGet u s.records = some rec → C.b64d rec.salt = some saltBytes →
        ((authenticate C s u p = .ok (some
            { user_id := rec.user_id, name := rec.name, role := rec.role }))
          ↔ rec.password_hash = C.sha256hex (saltBytes ++ C.utf8e p))
        ∧ (rec.password_hash ≠ C.sha256hex (saltBytes ++ C.utf8e p) →
            authenticate C s u p = .ok none) := by
  constructor
  · intro h
    simp [authenticate, h]
  · intro rec sb hg hb
    have hauth : authenticate C s u p =
        if rec.password_hash = hash_password C p sb then
          Except.ok (some { user_id := rec.user_id, name := rec.name,
                            role := rec.role })
        else Except.ok none := by
      unfold authenticate
      simp only [hg, hb]
    by_cases heq : rec.password_hash = hash_password C p sb
    · rw [if_pos heq] at hauth
      exact ⟨⟨fun _ => heq, fun _ => hauth⟩, fun hne => absurd heq hne⟩
    · rw [if_neg heq] at hauth
      refine ⟨⟨fun hcontra => ?_, fun hh => absurd hh heq⟩, fun _ => hauth⟩
      rw [hauth] at hcontra
      simp at hcontra

/-- Claim C7, witness: with the toy hash, the correct password for
`alice` authenticates and returns her identity, a wrong password gives
the negative result, and an absent username gives the same negative
result. -/
theorem C7_witness :
    authenticate toyC sAlice "alice" "pw"
      = .ok (some { user_id := "u_a", name := "Alice", role := "Investigator" })
    ∧ authenticate toyC sAlice "alice" "bad" = .ok none
    ∧ authenticate toyC sAlice "bob" "pw" = .ok none :=
  ⟨((C7_authenticate_spec toyC sAlice "alice" "pw").2 aliceRec [3] rfl
      rfl).1.mpr (by decide),
   ((C7_authenticate_spec toyC sAlice "alice" "bad").2 aliceRec [3] rfl
      rfl).2 (by decide),
   (C7_authenticate_spec toyC sAlice "bob" "pw").1 rfl⟩

/-- Claim C9, counterexample.  Updating the existing user `bob` with the
empty-string password does behave exactly as supplying no password
(conjunct 1), but the claim that `name` is "replaced with the new value"
fails when the new name is the empty string: Python's `name or username`
stores the username instead, so the stored name is `"bob"`, not `""`. -/
theorem C9_counterexample :
    upsert_user toyC [9] "fresh" sBob "bob" "" "Viewer" (some "") false
      = upsert_user toyC [9] "fresh" sBob "bob" "" "Viewer" none false
    ∧ (dictGet "bob"
        (upsert_user toyC [9] "fresh" sBob "bob" "" "Viewer" (some "") false).1.records).map
        UserRec.name = some "bob"
    ∧ some "bob" ≠ some ("" : String) := by decide

/-- Claim C9, amended.  For an existing username, an empty-string
password behaves exactly as no password at all (conjunct 1, for every
input).  In that case the stored salt (assumed canonical base64, `hcanon`,
which holds for every salt the service writes), password hash and user id
are carried forward unchanged while role and the full-access flag are
replaced; the name is replaced by the new name unless the new name is
empty, in which case the username is stored. -/
theorem C9_empty_password_update (C : Collab) (fs : List Nat) (fi : String)
    (s : AuthState) (u n r : String) (fa : Bool) (rec : UserRec)
    (saltBytes : List Nat)
    (hne : pyStrip u ≠ "")
    (hg : dictGet (pyStrip u) s.records = some rec)
    (hb : C.b64d rec.salt = some saltBytes)
    (hcanon : C.b64e saltBytes = rec.salt) :
    upsert_user C fs fi s u n r (some "") fa = upsert_user C fs fi s u n r none fa
    ∧ upsert_user C fs fi s u n r none fa
      = ({ records := dictSet (pyStrip u)
             { username := pyStrip u
               name := if n = "" then pyStrip u else n
               role := r
               user_id := rec.user_id
               salt := rec.salt
               password_hash := rec.password_hash
               full_access := fa } s.records,
           store := (dictSet (pyStrip u)
             { username := pyStrip u
               name := if n = "" then pyStrip u else n
               role := r
               user_id := rec.user_id
               salt := rec.salt
               password_hash := rec.password_hash
               full_access := fa } s.records).map (fun e => e.2) }, none) := by
  constructor
  · rfl
  · simp [upsert_user, hne, hg, hb, hcanon, pyTruthy]

/-- Claim C9, witness for the amended theorem at a concrete state. -/
theorem C9_witness :
    upsert_user toyC [9] "fresh" sBob "bob" "Robert" "Auditor" (some "") true
      = upsert_user toyC [9] "fresh" sBob "bob" "Robert" "Auditor" none true
    ∧ upsert_user toyC [9] "fresh" sBob "bob" "Robert" "Auditor" none true
      = ({ records := dictSet "bob"
             { username := "bob", name := "Robert", role := "Auditor",
               user_id := "u_b", salt := "\x02", password_hash := "HB",
               full_access := true } sBob.records,
           store := (dictSet "bob"
             { username := "bob", name := "Robert", role := "Auditor",
               user_id := "u_b", salt := "\x02", password_hash := "HB",
               full_access := true } sBob.records).map (fun e => e.2) },
         none) := by
  have h := C9_empty_password_update toyC [9] "fresh" sBob "bob" "Robert"
    "Auditor" true bobRec [2] (by decide) rfl rfl (by decide)
  exact ⟨h.1, by rw [h.2]; decide⟩

theorem goodRecords_dictSet (l : List (String × UserRec)) (k : String)
    (v : UserRec) (hk : k ≠ "") (hv : k = v.username) (hl : goodRecords l) :
    goodRecords (dictSet k v l) := by
  induction l with
  | nil =>
    intro p hp
    rw [dictSet] at hp
    rcases List.mem_singleton.mp hp with rfl
    exact ⟨hk, hv⟩
  | cons e rest ih =>
    obtain ⟨k2, v2⟩ := e
    intro p hp
    rw [dictSet] at hp
    by_cases hk2 : k2 = k
    · rw [if_pos hk2] at hp
      rcases List.mem_cons.mp hp with rfl | hmem
      · exact ⟨hk, hv⟩
      · exact hl p (List.mem_cons_of_mem _ hmem)
    · rw [if_neg hk2] at hp
      rcases List.mem_cons.mp hp with rfl | hmem
      · exact hl _ (List.mem_cons_self _ _)
      · exact ih (fun q hq => hl q (List.mem_cons_of_mem _ hq)) p hmem

theorem goodRecords_foldl_loadStep (entries : List UserRec) :
    ∀ acc : List (String × UserRec), goodRecords acc →
      goodRecords (entries.foldl loadStep acc) := by
  induction entries with
  | nil => exact fun acc h => h
  | cons e rest ih =>
    intro acc hacc
    rw [List.foldl_cons]
    apply ih
    unfold loadStep
    by_cases he : e.username = ""
    · rw [if_pos he]
      exact hacc
    · rw [if_neg he]
      exact goodRecords_dictSet acc e.username e he rfl hacc

theorem goodRecords_load_users (entries : List UserRec) :
    goodRecords (load_users entries) :=
  goodRecords_foldl_loadStep entries [] (fun p hp => absurd hp (List.not_mem_nil p))

theorem dictGet_empty_of_good (l : List (String × UserRec))
    (hl : goodRecords l) : dictGet "" l = none := by
  induction l with
  | nil => rfl
  | cons e rest ih =>
    obtain ⟨k2, v2⟩ := e
    rw [dictGet, if_neg (hl (k2, v2) (List.mem_cons_self _ _)).1]
    exact ih fun q hq => hl q (List.mem_cons_of_mem _ hq)

theorem mem_dictDel {α : Type} (k : String) (l : List (String × α))
    (p : String × α) (hp : p ∈ dictDel k l) : p ∈ l := by
  induction l with
  | nil => exact absurd hp (List.not_mem_nil p)
  | cons e rest ih =>
    obtain ⟨k2, v2⟩ := e
    rw [dictDel] at hp
    by_cases hk2 : k2 = k
    · rw [if_pos hk2] at hp
      exact List.mem_cons_of_mem _ hp
    · rw [if_neg hk2] at hp
      rcases List.mem_cons.mp hp with rfl | hmem
      · exact List.mem_cons_self _ _
      · exact List.mem_cons_of_mem _ (ih hmem)

/-- On success, `upsert_user` stores `dictSet` of some record keyed by the
stripped (nonempty) username, and persists exactly the mapping's values. -/
theorem upsert_ok_shape (C : Collab) (fs : List Nat) (fi : String)
    (s : AuthState) (u n r : String) (pw : Option String) (fa : Bool)
    (h : (upsert_user C fs fi s u n r pw fa).2 = none) :
    ∃ newRec : UserRec, newRec.username = pyStrip u ∧ pyStrip u ≠ "" ∧
      (upsert_user C fs fi s u n r pw fa).1
        = { records := dictSet (pyStrip u) newRec s.records,
            store := (dictSet (pyStrip u) newRec s.records).map (fun e => e.2) } := by
  by_cases h1 : pyStrip u = ""
  · exact absurd h (by simp [upsert_user, h1])
  by_cases h2 : ((dictGet (pyStrip u) s.records).isNone && !(pyTruthy pw)) = true
  · exact absurd h (by simp [upsert_user, h1, h2])
  cases hsh : (if pyTruthy pw then
        (Except.ok (fs, hash_password C (pw.getD "") fs)
          : Except String (List Nat × String))
      else
        match dictGet (pyStrip u) s.records with
        | none => Except.error "TypeError"
        | some rec2 =>
          match C.b64d rec2.salt with
          | none => Except.error "binascii.Error"
          | some saltBytes => Except.ok (saltBytes, rec2.password_hash)) with
  | error e => exact absurd h (by simp [upsert_user, h1, h2, hsh])
  | ok sh =>
    refine ⟨{ username := pyStrip u
              name := if n = "" then pyStrip u else n
              role := r
              user_id := match dictGet (pyStrip u) s.records with
                         | some rec2 => rec2.user_id
                         | none => "u_" ++ fi
              salt := C.b64e sh.1
              password_hash := sh.2
              full_access := fa }, rfl, h1, ?_⟩
    simp [upsert_user, h1, h2, hsh]

/-- On success, `delete_user` stores `dictDel` of the username and
persists exactly the mapping's values. -/
theorem delete_ok_shape (s : AuthState) (u : String)
    (h : (delete_user s u).2 = none) :
    (delete_user s u).1
      = { records := dictDel u s.records,
          store := (dictDel u s.records).map (fun e => e.2) } := by
  unfold delete_user at h ⊢
  split at h
  next => simp at h
  next rec hg =>
    split at h
    next => simp at h
    next hc => rw [if_neg hc]

/-- Claim C10: on load, every binding of the in-memory mapping has a
nonempty key equal to its record's username, so a persisted record whose
username is missing or empty is dropped (part 1); the empty username can
never authenticate (part 2); and after the next successful mutation
(`upsert_user` or `delete_user`), every record in the persisted store has
a nonempty username, i.e. the dropped record is gone from disk (parts 3
and 4). -/
theorem C10_empty_username_dropped (C : Collab) :
    (∀ (entries : List UserRec) (p : String × UserRec),
        p ∈ load_users entries → p.1 ≠ "" ∧ p.1 = p.2.username)
    ∧ (∀ (entries : List UserRec) (pw : String),
        authenticate C (stateOf entries) "" pw = .ok none)
    ∧ (∀ (entries : List UserRec) (fs : List Nat) (fi : String)
        (u n r : String) (pwd : Option String) (fa : Bool),
        (upsert_user C fs fi (stateOf entries) u n r pwd fa).2 = none →
        ∀ rec ∈ (upsert_user C fs fi (stateOf entries) u n r pwd fa).1.store,
          rec.username ≠ "")
    ∧ (∀ (entries : List UserRec) (u : String),
        (delete_user (stateOf entries) u).2 = none →
        ∀ rec ∈ (delete_user (stateOf entries) u).1.store,
          rec.username ≠ "") := by
  refine ⟨?_, ?_, ?_, ?_⟩
  · exact fun entries p hp => goodRecords_load_users entries p hp
  · intro entries pw
    have hg : dictGet "" (stateOf entries).records = none :=
      dictGet_empty_of_good _ (goodRecords_load_users entries)
    simp [authenticate, hg]
  · intro entries fs fi u n r pwd fa hok rec hrec
    obtain ⟨newRec, hname, hne, hshape⟩ :=
      upsert_ok_shape C fs fi (stateOf entries) u n r pwd fa hok
    rw [hshape] at hrec
    have hgood : goodRecords (dictSet (pyStrip u) newRec
        (stateOf entries).records) :=
      goodRecords_dictSet _ _ _ hne hname.symm (goodRecords_load_users entries)
    obtain ⟨q, hq, rfl⟩ := List.mem_map.mp hrec
    have := hgood q hq
    rw [← this.2]
    exact this.1
  · intro entries u hok rec hrec
    rw [delete_ok_shape (stateOf entries) u hok] at hrec
    obtain ⟨q, hq, rfl⟩ := List.mem_map.mp hrec
    have := goodRecords_load_users entries q (mem_dictDel u _ q hq)
    rw [← this.2]
    exact this.1

/-- Claim C10, witness: loading a store holding a ghost record (empty
username), an Admin and an Investigator drops the ghost from the mapping;
the empty username cannot authenticate; and after a successful upsert and
a successful delete every persisted record has a nonempty username. -/
theorem C10_witness :
    (("admin", adminRec) ∈ load_users [ghostRec, adminRec, invRec]
      ∧ "admin" ≠ "" ∧ "admin" = adminRec.username)
    ∧ authenticate toyC (stateOf [ghostRec, adminRec, invRec]) "" "pw" = .ok none
    ∧ (∀ rec ∈ (upsert_user toyC [9] "f" (stateOf [ghostRec, adminRec, invRec])
          "carol" "Carol" "Viewer" (some "pw") false).1.store,
        rec.username ≠ "")
    ∧ (∀ rec ∈ (delete_user (stateOf [ghostRec, adminRec, invRec])
          "investigator").1.store,
        rec.username ≠ "") :=
  ⟨⟨by decide,
    ((C10_empty_username_dropped toyC).1 [ghostRec, adminRec, invRec]
      ("admin", adminRec) (by decide)).1,
    ((C10_empty_username_dropped toyC).1 [ghostRec, adminRec, invRec]
      ("admin", adminRec) (by decide)).2⟩,
   (C10_empty_username_dropped toyC).2.1 [ghostRec, adminRec, invRec] "pw",
   (C10_empty_username_dropped toyC).2.2.1 [ghostRec, adminRec, invRec] [9] "f"
     "carol" "Carol" "Viewer" (some "pw") false (by decide),
   (C10_empty_username_dropped toyC).2.2.2 [ghostRec, adminRec, invRec]
     "investigator" (by decide)⟩

/-- Claim C8: under the `os.urandom(32)` guarantee that `rnd` has 32
bytes, `load_key` (1) only ever returns 32-byte keys, (2) creates the
missing key file with the fresh random bytes and returns them, (3) raises
the configuration error exactly when the file existed on disk with a
length other than 32, and (4) is idempotent once the file exists: a
second call returns the same bytes and leaves the file unchanged,
whatever the second random draw would have been. -/
theorem C8_load_key (rnd : List Nat) (hrnd : rnd.length = 32) :
    (∀ (file : Option (List Nat)) (k : List Nat),
        (SecretKeyManager.load_key file rnd).2 = .ok k → k.length = 32)
    ∧ SecretKeyManager.load_key none rnd = (some rnd, .ok rnd)
    ∧ (∀ file : Option (List Nat),
        (∃ e, (SecretKeyManager.load_key file rnd).2 = .error e)
          ↔ ∃ b, file = some b ∧ b.length ≠ 32)
    ∧ (∀ (file : Option (List Nat)) (rnd2 : List Nat),
        SecretKeyManager.load_key (SecretKeyManager.load_key file rnd).1 rnd2
          = SecretKeyManager.load_key file rnd) := by
  refine ⟨?_, ?_, ?_, ?_⟩
  · intro file k hk
    unfold SecretKeyManager.load_key at hk
    cases file with
    | none =>
      rw [if_neg (by rw [hrnd]; exact fun hne => hne rfl)] at hk
      obtain rfl : rnd = k := by injection hk
      exact hrnd
    | some b =>
      by_cases hb : b.length ≠ 32
      · rw [if_pos hb] at hk
        exact absurd hk (by simp)
      · rw [if_neg hb] at hk
        obtain rfl : b = k := by injection hk
        exact Classical.byContradiction hb
  · unfold SecretKeyManager.load_key
    rw [if_neg (by rw [hrnd]; exact fun hne => hne rfl)]
  · intro file
    unfold SecretKeyManager.load_key
    cases file with
    | none =>
      rw [if_neg (by rw [hrnd]; exact fun hne => hne rfl)]
      constructor
      · rintro ⟨e, he⟩
        exact absurd he (by simp)
      · rintro ⟨b, hb, _⟩
        exact absurd hb (by simp)
    | some b =>
      by_cases hb : b.length ≠ 32
      · rw [if_pos hb]
        exact ⟨fun _ => ⟨b, rfl, hb⟩, fun _ => ⟨_, rfl⟩⟩
      · rw [if_neg hb]
        constructor
        · rintro ⟨e, he⟩
          exact absurd he (by simp)
        · rintro ⟨b2, hb2, hlen⟩
          obtain rfl : b = b2 := by injection hb2
          exact absurd hlen hb
  · intro file rnd2
    cases file with
    | none =>
      have h1 : SecretKeyManager.load_key none rnd = (some rnd, .ok rnd) := by
        unfold SecretKeyManager.load_key
        rw [if_neg (by rw [hrnd]; exact fun hne => hne rfl)]
      rw [h1]
      unfold SecretKeyManager.load_key
      rw [if_neg (by rw [hrnd]; exact fun hne => hne rfl)]
    | some b =>
      by_cases hb : b.length ≠ 32
      · have h1 : SecretKeyManager.load_key (some b) rnd
            = (some b, .error "Key must be exactly 32 bytes.") := by
          unfold SecretKeyManager.load_key
          rw [if_pos hb]
        rw [h1]
        unfold SecretKeyManager.load_key
        rw [if_pos hb]
      · have h1 : SecretKeyManager.load_key (some b) rnd = (some b, .ok b) := by
          unfold SecretKeyManager.load_key
          rw [if_neg hb]
        rw [h1]
        unfold SecretKeyManager.load_key
        rw [if_neg hb]

/-- Claim C8, witness: at the all-zero 32-byte random draw, a missing
file is created and returned; a 5-byte file raises; and the second call
on the created file is a no-op returning the same key. -/
theorem C8_witness :
    (SecretKeyManager.load_key (some (List.replicate 5 7))
        (List.replicate 32 0)).2
      = .error "Key must be exactly 32 bytes."
    ∧ SecretKeyManager.load_key none (List.replicate 32 0)
      = (some (List.replicate 32 0), .ok (List.replicate 32 0))
    ∧ SecretKeyManager.load_key
        (SecretKeyManager.load_key none (List.replicate 32 0)).1
        (List.replicate 32 9)
      = SecretKeyManager.load_key none (List.replicate 32 0) :=
  ⟨rfl,
   (C8_load_key (List.replicate 32 0) (by decide)).2.1,
   (C8_load_key (List.replicate 32 0) (by decide)).2.2.2 none
     (List.replicate 32 9)⟩

theorem evInv_init {R : Type} {n : Nat} (recs : Fin n → R) (init : List R) :
    EvInv recs init (initConfig R n init) := by
  refine ⟨?_, ⟨[], List.nodup_nil, ?_, by simp [initConfig]⟩, ?_⟩
  · intro i h
    exact absurd h (by simp [initConfig, inCS])
  · intro i
    simp [initConfig]
  · intro i loc h
    simp [initConfig] at h

theorem evInv_step {R : Type} {n : Nat} {recs : Fin n → R} {init : List R}
    {c c2 : EvConfig R n} (hinv : EvInv recs init c)
    (hstep : EvStep recs c c2) : EvInv recs init c2 := by
  obtain ⟨hlock, ⟨l, hnd, hmem, hfile⟩, hloc⟩ := hinv
  cases hstep with
  | acquire i h1 h2 =>
    refine ⟨?_, ⟨l, hnd, ?_, hfile⟩, ?_⟩
    · intro j hj
      dsimp only at hj ⊢
      by_cases hji : j = i
      · rw [hji]
      · rw [Function.update_noteq hji] at hj
        have hcon := hlock j hj
        rw [h2] at hcon
        exact absurd hcon (by simp)
    · intro j
      dsimp only
      by_cases hji : j = i
      · subst hji
        rw [Function.update_same, hmem j, h1]
        simp
      · rw [Function.update_noteq hji]
        exact hmem j
    · intro j loc hj
      dsimp only at hj ⊢
      by_cases hji : j = i
      · subst hji
        rw [Function.update_same] at hj
        simp at hj
      · rw [Function.update_noteq hji] at hj
        exact hloc j loc hj
  | readStore i h1 =>
    refine ⟨?_, ⟨l, hnd, ?_, hfile⟩, ?_⟩
    · intro j hj
      dsimp only at hj ⊢
      by_cases hji : j = i
      · subst hji
        exact hlock j (by rw [h1]; trivial)
      · rw [Function.update_noteq hji] at hj
        exact hlock j hj
    · intro j
      dsimp only
      by_cases hji : j = i
      · subst hji
        rw [Function.update_same, hmem j, h1]
        simp
      · rw [Function.update_noteq hji]
        exact hmem j
    · intro j loc hj
      dsimp only at hj ⊢
      by_cases hji : j = i
      · subst hji
        rw [Function.update_same] at hj
        injection hj with heq
        exact heq.symm
      · rw [Function.update_noteq hji] at hj
        exact hloc j loc hj
  | writeStore i loc h1 =>
    have hl : loc = c.file := hloc i loc h1
    have hiCS : c.lock = some i := hlock i (by rw [h1]; trivial)
    have hinotmem : i ∉ l := by
      intro hc
      have hw := (hmem i).mp hc
      rw [h1] at hw
      simp at hw
    refine ⟨?_, ⟨l ++ [i], ?_, ?_, ?_⟩, ?_⟩
    · intro j hj
      dsimp only at hj ⊢
      by_cases hji : j = i
      · rw [hji]
        exact hiCS
      · rw [Function.update_noteq hji] at hj
        exact hlock j hj
    · simp [List.nodup_append, hnd, hinotmem]
    · intro j
      dsimp only
      by_cases hji : j = i
      · subst hji
        rw [Function.update_same]
        simp
      · rw [Function.update_noteq hji]
        rw [List.mem_append, hmem j]
        simp [hji]
    · show loc ++ [recs i] = init ++ (l ++ [i]).map recs
      rw [hl, hfile, List.map_append, ← List.append_assoc]
      rfl
    · intro j loc2 hj
      dsimp only at hj ⊢
      by_cases hji : j = i
      · subst hji
        rw [Function.update_same] at hj
        simp at hj
      · rw [Function.update_noteq hji] at hj
        have hcl := hlock j (by rw [hj]; trivial)
        rw [hiCS] at hcl
        injection hcl with hji2
        exact absurd hji2.symm hji
  | release i h1 =>
    have hiCS : c.lock = some i := hlock i (by rw [h1]; trivial)
    refine ⟨?_, ⟨l, hnd, ?_, hfile⟩, ?_⟩
    · intro j hj
      dsimp only at hj ⊢
      by_cases hji : j = i
      · subst hji
        rw [Function.update_same] at hj
        exact absurd hj (by simp [inCS])
      · rw [Function.update_noteq hji] at hj
        have hcl := hlock j hj
        rw [hiCS] at hcl
        injection hcl with hji2
        exact absurd hji2.symm hji
    · intro j
      dsimp only
      by_cases hji : j = i
      · subst hji
        rw [Function.update_same, hmem j, h1]
        simp
      · rw [Function.update_noteq hji]
        exact hmem j
    · intro j loc hj
      dsimp only at hj ⊢
      by_cases hji : j = i
      · subst hji
        rw [Function.update_same] at hj
        simp at hj
      · rw [Function.update_noteq hji] at hj
        exact hloc j loc hj

theorem evInv_reachable {R : Type} {n : Nat} {recs : Fin n → R}
    {init : List R} {c : EvConfig R n} (h : evReachable recs init c) :
    EvInv recs init c := by
  induction h with
  | refl => exact evInv_init recs init
  | tail hsteps hstep ih => exact evInv_step ih hstep

/-- Claim C3, counterexample: `list_images` performs no lock acquisition
at all — its body is a bare read — whereas `add_image` and `clear` do
wrap their work in `with self._lock`. -/
theorem C3_counterexample :
    EvAction.acquire ∉ list_images_actions
    ∧ EvAction.acquire ∈ add_image_actions
    ∧ EvAction.acquire ∈ clear_actions := by decide

/-- Claim C3, amended: (1) in every complete interleaving of `N`
concurrent `add_image` calls, each appending its own record under the
store's lock, the final document is the initial one followed by all `N`
records in some order — exactly `N` records, none lost; (2) `list_images`
reads without acquiring the lock (its body is the bare read). -/
theorem C3_add_image_atomic :
    (∀ (R : Type) (n : Nat) (recs : Fin n → R) (init : List R)
        (c : EvConfig R n), evReachable recs init c →
        (∀ i, c.pcs i = .done) →
        ∃ l : List (Fin n), l.Perm (List.finRange n)
          ∧ c.file = init ++ l.map recs)
    ∧ list_images_actions = [EvAction.readStore] := by
  constructor
  · intro R n recs init c hreach hdone
    obtain ⟨hlock, ⟨l, hnd, hmem, hfile⟩, hloc⟩ := evInv_reachable hreach
    refine ⟨l, ?_, hfile⟩
    rw [List.perm_ext_iff_of_nodup hnd (List.nodup_finRange n)]
    intro i
    rw [hmem i, hdone i]
    simp [List.mem_finRange]
  · rfl

/-- Claim C3, witness: one thread (`n = 1`) appending the record `5` to
an initially empty store, through the four-step execution
acquire-read-write-release, ends with the store holding exactly `[5]`. -/
theorem C3_witness :
    (∃ l : List (Fin 1), l.Perm (List.finRange 1)
       ∧ ([5] : List Nat) = [] ++ l.map (fun _ => 5))
    ∧ list_images_actions = [EvAction.readStore] := by
  constructor
  · have hreach := Relation.ReflTransGen.tail (Relation.ReflTransGen.tail
      (Relation.ReflTransGen.tail (Relation.ReflTransGen.tail
        (Relation.ReflTransGen.refl
          (a := initConfig Nat 1 []))
        (@EvStep.acquire Nat 1 (fun _ => (5 : Nat)) _ 0 rfl rfl))
        (EvStep.readStore _ 0 rfl))
        (EvStep.writeStore _ 0 [] rfl))
        (EvStep.release _ 0 rfl)
    obtain ⟨l, hperm, hfile⟩ := C3_add_image_atomic.1 Nat 1 (fun _ => 5) []
      _ hreach (fun i => by
        have hi : i = 0 := Fin.ext (by omega)
        rw [hi]
        rfl)
    exact ⟨l, hperm, hfile⟩
  · exact C3_add_image_atomic.2

end RamAcq

